import Mathlib

/-
Verification development for the reducer repository: a shallow embedding of
the command extractor and transformer, the interestingness-test synthesizer,
the preprocess-and-validate step, the crash-check bisector, and the dialect
probe, together with theorems settling the frozen claims about them.

Strings are modelled as lists of characters.  Python string primitives
(replace, find, slicing, split, regular-expression substitution for the three
concrete patterns the code uses) are defined below; recursions that consume a
variable number of characters per step carry an explicit fuel argument that
the wrappers instantiate with the input length, which is always sufficient
because every step consumes at least one character.
-/

abbrev Chars := List Char

/-- leadsWith p x is true when p is a prefix of x (character-wise). -/
def leadsWith : Chars → Chars → Bool
  | [], _ => true
  | _ :: _, [] => false
  | p :: ps, c :: cs => p == c && leadsWith ps cs

/-- hasSub pat x is true when pat occurs as a contiguous substring of x
(the Python in operator on strings). -/
def hasSub (pat : Chars) : Chars → Bool
  | [] => leadsWith pat []
  | c :: rest => leadsWith pat (c :: rest) || hasSub pat rest

/-- One scanning pass of Python str.replace: replace each non-overlapping
occurrence of the pattern left to right, never rescanning replacement text.
Fuel bounds the recursion; strReplace passes the input length, which is
sufficient because each step consumes at least one input character (the
pattern is nonempty at every call site in this development). -/
def strRepGo (pat repl : Chars) : Nat → Chars → Chars
  | _, [] => []
  | 0, x => x
  | fuel + 1, c :: rest =>
    if leadsWith pat (c :: rest) then
      repl ++ strRepGo pat repl fuel ((c :: rest).drop pat.length)
    else
      c :: strRepGo pat repl fuel rest

/-- Python str.replace(pat, repl) for a nonempty pattern. -/
def strReplace (pat repl x : Chars) : Chars := strRepGo pat repl x.length x

/-- Python str.split(sep) for a nonempty separator: splits on every
occurrence, keeping empty pieces, always returning at least one piece. -/
def splitSepGo (sep : Chars) : Nat → Chars → List Chars
  | _, [] => [[]]
  | 0, x => [x]
  | fuel + 1, c :: rest =>
    if leadsWith sep (c :: rest) then
      [] :: splitSepGo sep fuel ((c :: rest).drop sep.length)
    else
      match splitSepGo sep fuel rest with
      | s :: ss => (c :: s) :: ss
      | [] => [[c]]

/-- Python str.split(sep). -/
def splitSep (sep x : Chars) : List Chars := splitSepGo sep x.length x

/-- Index of the first occurrence of pat in x at or after offset i,
counting from i. -/
def pyFindAux (pat : Chars) : Chars → Nat → Option Nat
  | [], i => if leadsWith pat [] then some i else none
  | c :: rest, i =>
    if leadsWith pat (c :: rest) then some i else pyFindAux pat rest (i + 1)

/-- Python str.find(pat, start): the least index of an occurrence of pat at
or after start, or -1 when there is none. -/
def pyFind (pat x : Chars) (start : Nat) : Int :=
  match pyFindAux pat (x.drop start) start with
  | some i => (i : Int)
  | none => -1

/-- Python slice x[a:b] for integer endpoints (negative indices count from
the end, results are clamped to the string). -/
def pySlice (x : Chars) (a b : Int) : Chars :=
  let n : Int := (x.length : Int)
  let a2 : Int := if a < 0 then max (n + a) 0 else min a n
  let b2 : Int := if b < 0 then max (n + b) 0 else min b n
  (x.take b2.toNat).drop a2.toNat

/-- Python slice x[a:] for an integer start. -/
def pySliceFrom (x : Chars) (a : Int) : Chars :=
  if a < 0 then x.drop ((x.length : Int) + a).toNat else x.drop a.toNat

/-
The pathlib.Path argument of the source is modelled by the strings the code
extracts from it: the literal text, the absolute form, the resolved form, the
base name and the parent directory.  The filesystem determines the absolute
and resolved forms, so they are fields of the model rather than computed.
-/
structure SrcPath where
  lit : Chars
  abs : Chars
  res : Chars
  name : Chars
  parent : Chars
deriving DecidableEq

/-- replace_path from reducer/lib/setup.py: replace the literal, absolute and
resolved forms of the path by the new string, in that order. -/
def replace_path (s : Chars) (file : SrcPath) (new_path_str : Chars) : Chars :=
  strReplace file.res new_path_str
    (strReplace file.abs new_path_str
      (strReplace file.lit new_path_str s))

/-
Preprocess-and-Validate (preprocess_file in reducer/lib/setup.py).  The
external preprocessing pass is a capability: a function pp from file contents
to file contents (the effect of the derived -E -P compiler run on the working
file).  The interestingness script is a predicate test on file contents.  The
function returns the content of the working source file afterwards: the code
backs the file up, overwrites it with the preprocessed candidate, reruns the
script, and restores the backup when the script exits nonzero (logged only,
never fatal).
-/
def preprocess_file (pp : Chars → Chars) (test : Chars → Bool) (src : Chars) : Chars :=
  let backup := src
  let candidate := pp src
  if test candidate then candidate else backup

/-- Removing every space character: an idempotent stand-in preprocessing
pass used by concrete witnesses. -/
def dropSpaces (s : Chars) : Chars := s.filter (fun c => !(c == ' '))

/-- Claim C4 counterexample data: a preprocessing pass whose output fails the
interestingness script, run on an input that also fails it. -/
def c4pp : Chars → Chars := fun _ => ("bad").toList

/-- Interestingness script of the C4 counterexample: only the string good is
interesting. -/
def c4test : Chars → Bool := fun s => decide (s = ("good").toList)

/-- Claim C4 (counterexample): when preprocessing breaks the interestingness
property, preprocess_file restores the original input, but that restored file
is not itself a verified member of the interesting set — the script was never
run on it and here it fails the script.  This refutes the final clause of the
claim as stated. -/
theorem c4_counterexample :
    preprocess_file c4pp c4test (("orig").toList) = ("orig").toList ∧
    c4test (preprocess_file c4pp c4test (("orig").toList)) = false := by
  decide

/-- Claim C4 (amended): if the interestingness script rejects the preprocessed
candidate, preprocess_file returns the working file byte-identical to the
input backed up before preprocessing; the recovery is a total, non-fatal code
path. -/
theorem c4_restore (pp : Chars → Chars) (test : Chars → Bool) (src : Chars)
    (h : test (pp src) = false) : preprocess_file pp test src = src := by
  simp [preprocess_file, h]

/-- Witness for c4_restore at a concrete rejected candidate. -/
theorem c4_restore_witness :
    c4test (c4pp (("orig").toList)) = false ∧
    preprocess_file c4pp c4test (("orig").toList) = ("orig").toList :=
  ⟨by decide, c4_restore c4pp c4test (("orig").toList) (by decide)⟩

/-- Appending a character: a non-idempotent preprocessing pass used by the C8
counterexample. -/
def c8pp : Chars → Chars := fun s => s ++ [('x')]

/-- Claim C8 (counterexample): with an always-satisfied interestingness script
(so the input is already interesting) and a preprocessing pass that is not
idempotent, running preprocess_file twice changes the file again, so the
claimed idempotence fails as stated. -/
theorem c8_counterexample :
    (fun _ : Chars => true) (("s").toList) = true ∧
    preprocess_file c8pp (fun _ => true)
        (preprocess_file c8pp (fun _ => true) (("s").toList)) ≠
      preprocess_file c8pp (fun _ => true) (("s").toList) := by
  decide

/-- Claim C8 (amended): running preprocess_file twice leaves the working
file byte-identical to running it once whenever the external preprocessing
pass is idempotent on the input, or the candidate the second run produces
fails the interestingness script (in which case the second run rolls back to
the output of the first). -/
theorem c8_idem (pp : Chars → Chars) (test : Chars → Bool) (src : Chars)
    (h : pp (pp src) = pp src ∨
      test (pp (preprocess_file pp test src)) = false) :
    preprocess_file pp test (preprocess_file pp test src) =
      preprocess_file pp test src := by
  rcases h with h | h
  · unfold preprocess_file
    by_cases htest : test (pp src) = true
    · simp [htest, h]
    · simp [htest]
  · generalize preprocess_file pp test src = s1 at h ⊢
    simp [preprocess_file, h]

/-- Interestingness script of the second C8 witness instance: contents of at
most two characters are interesting. -/
def c8len2 : Chars → Bool := fun s => decide (s.length ≤ 2)

/-- Witness for c8_idem exercising both disjuncts of its hypothesis: the
space-stripping pass is idempotent, and the character-appending pass is not
idempotent but its second candidate fails the length-two script, so the
second run rolls back. -/
theorem c8_idem_witness :
    (dropSpaces (dropSpaces (("a b").toList)) = dropSpaces (("a b").toList) ∧
      preprocess_file dropSpaces (fun _ => true)
          (preprocess_file dropSpaces (fun _ => true) (("a b").toList)) =
        preprocess_file dropSpaces (fun _ => true) (("a b").toList)) ∧
    (c8len2 (c8pp (preprocess_file c8pp c8len2 (("s").toList))) = false ∧
      preprocess_file c8pp c8len2 (preprocess_file c8pp c8len2 (("s").toList)) =
        preprocess_file c8pp c8len2 (("s").toList)) :=
  ⟨⟨by decide,
    c8_idem dropSpaces (fun _ => true) (("a b").toList) (Or.inl (by decide))⟩,
   ⟨by decide,
    c8_idem c8pp c8len2 (("s").toList) (Or.inr (by decide))⟩⟩

/-
The command transformer (transform_compile_commands in reducer/lib/setup.py):
after replace_path, the code applies
  re.sub(r"-o [^ ]*\.o", "-o output.cpp.o", s)
  s.replace("-c ", "-I<parent> -c ")
  s.replace("-c ", "-Wfatal-errors -c ")
  re.sub(r"-Werror(=[\w-]*)?", "", s)
The two regular expressions are implemented below for exactly these patterns,
with Python re.sub semantics: non-overlapping matches found left to right,
greedy quantifiers, replacement text never rescanned.
-/

/-- Length of the longest prefix of the run that ends in the two characters
dot then o; this is where the greedy match of the pattern in
re.sub(r"-o [^ ]*\.o", ...) ends inside a maximal run of non-space
characters. -/
def lastDotO : Chars → Option Nat
  | [] => none
  | c :: rest =>
    match lastDotO rest with
    | some k => some (k + 1)
    | none =>
      if c == '.' then
        match rest with
        | o :: _ => if o == 'o' then some 2 else none
        | [] => none
      else none

/-- Length of the match of the pattern in re.sub(r"-o [^ ]*\.o", ...) when it
matches at the head of x: the three characters dash o space, then the longest
prefix of the following non-space run that ends in dot o. -/
def matchOutputLen (x : Chars) : Option Nat :=
  if leadsWith (("-o ").toList) x then
    match lastDotO ((x.drop 3).takeWhile (fun c => !(c == ' '))) with
    | some m => some (3 + m)
    | none => none
  else none

/-- Scanning pass of re.sub(r"-o [^ ]*\.o", "-o output.cpp.o", x); the fuel
is instantiated with the input length, sufficient because each match consumes
at least five characters. -/
def subOutputGo : Nat → Chars → Chars
  | _, [] => []
  | 0, x => x
  | fuel + 1, c :: rest =>
    match matchOutputLen (c :: rest) with
    | some k => (("-o output.cpp.o").toList) ++ subOutputGo fuel ((c :: rest).drop k)
    | none => c :: subOutputGo fuel rest

/-- re.sub(r"-o [^ ]*\.o", "-o output.cpp.o", x). -/
def subOutput (x : Chars) : Chars := subOutputGo x.length x

/-- The characters matched by the class [\w-] of the -Werror pattern (ASCII
word characters and the hyphen; commands are ASCII text). -/
def wordDash (c : Char) : Bool := c.isAlphanum || c == '_' || c == '-'

/-- The literal pattern -Werror. -/
def werrorPat : Chars := ("-Werror").toList

/-- Length of the match of re.sub(r"-Werror(=[\w-]*)?", ...) at the head of
x: the seven pattern characters, plus a greedy equals-sign group when
present. -/
def matchWerrorLen (x : Chars) : Option Nat :=
  if leadsWith werrorPat x then
    match x.drop 7 with
    | '=' :: r => some (8 + (r.takeWhile wordDash).length)
    | _ => some 7
  else none

/-- Scanning pass of re.sub(r"-Werror(=[\w-]*)?", "", x); fuel as above,
sufficient because each match consumes at least seven characters. -/
def subWerrorGo : Nat → Chars → Chars
  | _, [] => []
  | 0, x => x
  | fuel + 1, c :: rest =>
    match matchWerrorLen (c :: rest) with
    | some k => subWerrorGo fuel ((c :: rest).drop k)
    | none => c :: subWerrorGo fuel rest

/-- re.sub(r"-Werror(=[\w-]*)?", "", x). -/
def subWerror (x : Chars) : Chars := subWerrorGo x.length x

/-- transform_compile_commands up to but excluding its final -Werror
substitution: replace_path, the -o rewrite, and the two -c insertions, in
source order. -/
def transformPreWerror (comp_db_entry : Chars) (source_file : SrcPath) : Chars :=
  let s1 := replace_path comp_db_entry source_file source_file.name
  let s2 := subOutput s1
  let s3 := strReplace (("-c ").toList)
    ((("-I").toList) ++ source_file.parent ++ ((" -c ").toList)) s2
  strReplace (("-c ").toList) (("-Wfatal-errors -c ").toList) s3

/-- transform_compile_commands from reducer/lib/setup.py. -/
def transform_compile_commands (comp_db_entry : Chars) (source_file : SrcPath) : Chars :=
  subWerror (transformPreWerror comp_db_entry source_file)

/-
The extractor (get_compile_commands_entry_for_file in reducer/lib/setup.py)
applies transform_compile_commands to the raw text of the compilation
database and then keeps the parsed entries whose file field contains the
base name of the target as a substring.  The database is modelled as the
list of its parsed entries; the text-level transformation acts on each
string field of each entry (the replacement patterns never span JSON
structure for the entries considered here), so it is applied field-wise.
-/
structure CompEntry where
  file : Chars
  command : Chars
deriving DecidableEq

/-- The text-level transformation of the database restricted to one entry. -/
def transformEntry (source_file : SrcPath) (e : CompEntry) : CompEntry :=
  { file := transform_compile_commands e.file source_file
    command := transform_compile_commands e.command source_file }

/-- get_compile_commands_entry_for_file from reducer/lib/setup.py: transform
the database text, parse it, and keep every entry whose file field contains
the base name of the target as a substring. -/
def get_compile_commands_entry_for_file (source_file : SrcPath) (db : List CompEntry) :
    List CompEntry :=
  (db.map (transformEntry source_file)).filter (fun e => hasSub source_file.name e.file)

/-- The target file of the C2 counterexample. -/
def c2Target : SrcPath :=
  { lit := ("/a/main.cpp").toList
    abs := ("/a/main.cpp").toList
    res := ("/a/main.cpp").toList
    name := ("main.cpp").toList
    parent := ("/a").toList }

/-- A database with two entries whose files share the base name main.cpp. -/
def c2Db : List CompEntry :=
  [ { file := ("/a/main.cpp").toList, command := ("cc -c /a/main.cpp").toList }
  , { file := ("/b/main.cpp").toList, command := ("cc -c /b/main.cpp").toList } ]

/-- Claim C2 (counterexample): with two database entries sharing the base
name of the target, the extractor returns both entries — it neither returns
exactly one nor raises any fatal configuration error (its type has no error
outcome and the caller silently indexes the first element). -/
theorem c2_counterexample :
    (get_compile_commands_entry_for_file c2Target c2Db).length = 2 ∧
    (get_compile_commands_entry_for_file c2Target c2Db).length ≠ 1 := by
  decide

/-- Claim C2 (amended): the extractor returns the list of all transformed
entries whose file field contains the base name of the target as a substring;
every returned entry satisfies that test, and every matching entry of the
database appears in the result — zero or several matches are returned as-is
with no error raised. -/
theorem c2_amended (source_file : SrcPath) (db : List CompEntry) :
    (get_compile_commands_entry_for_file source_file db).all
      (fun e => hasSub source_file.name e.file) = true ∧
    ∀ e, e ∈ db →
      hasSub source_file.name (transform_compile_commands e.file source_file) = true →
      transformEntry source_file e ∈ get_compile_commands_entry_for_file source_file db := by
  constructor
  · rw [List.all_eq_true]
    intro e he
    exact (List.mem_filter.mp he).2
  · intro e he hm
    unfold get_compile_commands_entry_for_file
    exact List.mem_filter.mpr ⟨List.mem_map_of_mem _ he, hm⟩

/-- Witness for c2_amended: the second entry of the ambiguous database is a
match and is indeed among the returned entries. -/
theorem c2_amended_witness :
    transformEntry c2Target { file := ("/b/main.cpp").toList, command := ("cc -c /b/main.cpp").toList } ∈
      get_compile_commands_entry_for_file c2Target c2Db :=
  (c2_amended c2Target c2Db).2 _ (by decide) (by decide)

/-- prevOk prev is true when the character before a pattern occurrence (none
at the start of the string) is absent or a space. -/
def prevOk : Option Char → Bool
  | none => true
  | some c => c == ' '

/-- werrorSpacedAux prev x checks that every occurrence of -Werror in x is at
the start (when prev is none) or immediately preceded by a space, scanning
with the previous character threaded through. -/
def werrorSpacedAux : Option Char → Chars → Bool
  | _, [] => true
  | prev, c :: rest =>
    (!leadsWith werrorPat (c :: rest) || prevOk prev) && werrorSpacedAux (some c) rest

/-- Every occurrence of -Werror in x is at the start of x or immediately
preceded by a space — true of ordinary compiler command lines, where flags
are space-delimited tokens. -/
def werrorSpaced (x : Chars) : Bool := werrorSpacedAux none x

theorem subWerrorGo_nil (fuel : Nat) : subWerrorGo fuel [] = [] := by
  cases fuel <;> rfl

theorem bandSplit {a b : Bool} (h : (a && b) = true) : a = true ∧ b = true := by
  simp at h
  exact h

theorem werrorSpacedAux_tail (p : Option Char) (c : Char) (rest : Chars)
    (h : werrorSpacedAux p (c :: rest) = true) :
    werrorSpacedAux (some c) rest = true := by
  unfold werrorSpacedAux at h
  exact (bandSplit h).2

theorem werrorSpacedAux_head (p : Option Char) (x : Chars)
    (haux : werrorSpacedAux p x = true) (hw : leadsWith werrorPat x = true) :
    prevOk p = true := by
  cases x with
  | nil => exact absurd hw (by decide)
  | cons c rest =>
    unfold werrorSpacedAux at haux
    have h1 := (bandSplit haux).1
    rw [hw] at h1
    simpa using h1

theorem werrorSpacedAux_drop (k : Nat) :
    ∀ (x : Chars) (p : Option Char), werrorSpacedAux p x = true →
      ∃ q, werrorSpacedAux q (x.drop k) = true := by
  induction k with
  | zero => exact fun x p h => ⟨p, h⟩
  | succ n ih =>
    intro x p h
    cases x with
    | nil => exact ⟨p, rfl⟩
    | cons c rest => exact ih rest (some c) (werrorSpacedAux_tail p c rest h)

theorem matchWerrorLen_some_leads {x : Chars} {k : Nat}
    (h : matchWerrorLen x = some k) : leadsWith werrorPat x = true := by
  unfold matchWerrorLen at h
  split at h
  · assumption
  · exact absurd h (by simp)

theorem matchWerrorLen_pos {x : Chars} {k : Nat}
    (h : matchWerrorLen x = some k) : 1 ≤ k := by
  unfold matchWerrorLen at h
  split at h
  · split at h <;> (injection h with h; omega)
  · exact absurd h (by simp)

/-- If a space-free pattern is a prefix of the scanned output and the scan
state says every -Werror occurrence is preceded by a space while the previous
character is not a space, then the pattern was already a prefix of the
unscanned input: no deletion can have happened inside it. -/
theorem subWerrorGo_leads :
    ∀ (p : Chars), (∀ c ∈ p, c ≠ ' ') →
      ∀ (fuel : Nat) (y : Chars) (pc : Char), pc ≠ ' ' →
        werrorSpacedAux (some pc) y = true →
        leadsWith p (subWerrorGo fuel y) = true →
        leadsWith p y = true := by
  intro p
  induction p with
  | nil => intro _ fuel y pc _ _ _; rfl
  | cons q qs ih =>
    intro hp fuel y pc hpc haux hlead
    cases y with
    | nil =>
      rw [subWerrorGo_nil] at hlead
      simp [leadsWith] at hlead
    | cons c ys =>
      cases fuel with
      | zero => exact hlead
      | succ f =>
        cases hm : matchWerrorLen (c :: ys) with
        | some k =>
          have hw := matchWerrorLen_some_leads hm
          have hok := werrorSpacedAux_head (some pc) (c :: ys) haux hw
          simp [prevOk] at hok
          exact absurd hok hpc
        | none =>
          have heq : subWerrorGo (f + 1) (c :: ys) = c :: subWerrorGo f ys := by
            simp [subWerrorGo, hm]
          rw [heq] at hlead
          rw [leadsWith] at hlead
          have h1 := bandSplit hlead
          have hqc : q = c := by simpa using h1.1
          have hcne : c ≠ ' ' := hqc ▸ hp q (List.mem_cons_self q qs)
          have htail := werrorSpacedAux_tail (some pc) c ys haux
          have hy := ih (fun ch hch => hp ch (List.mem_cons_of_mem _ hch))
            f ys c hcne htail h1.2
          rw [leadsWith, Bool.and_eq_true]
          exact ⟨by simp [hqc], hy⟩

/-- Under the space-delimitation condition on the input, the -Werror
substitution pass leaves no occurrence of -Werror in its output. -/
theorem subWerrorGo_no_werror :
    ∀ (fuel : Nat) (x : Chars) (p : Option Char), x.length ≤ fuel →
      werrorSpacedAux p x = true →
      hasSub werrorPat (subWerrorGo fuel x) = false := by
  intro fuel
  induction fuel with
  | zero =>
    intro x p hlen _
    have hx : x = [] := List.length_eq_zero.mp (Nat.le_zero.mp hlen)
    subst hx
    decide
  | succ f ih =>
    intro x p hlen haux
    cases x with
    | nil =>
      rw [subWerrorGo_nil]
      decide
    | cons c rest =>
      cases hm : matchWerrorLen (c :: rest) with
      | some k =>
        have hk := matchWerrorLen_pos hm
        obtain ⟨q, hq⟩ := werrorSpacedAux_drop k (c :: rest) p haux
        have heq : subWerrorGo (f + 1) (c :: rest) =
            subWerrorGo f ((c :: rest).drop k) := by
          simp [subWerrorGo, hm]
        rw [heq]
        refine ih _ q ?_ hq
        have hlen2 : rest.length + 1 ≤ f + 1 := by simpa using hlen
        simp [List.length_drop]
        omega
      | none =>
        have heq : subWerrorGo (f + 1) (c :: rest) = c :: subWerrorGo f rest := by
          simp [subWerrorGo, hm]
        rw [heq]
        have hlen2 : rest.length ≤ f := by simpa using hlen
        have htail : hasSub werrorPat (subWerrorGo f rest) = false :=
          ih rest (some c) hlen2 (werrorSpacedAux_tail p c rest haux)
        unfold hasSub
        rw [htail, Bool.or_false]
        by_contra hcon
        have hlead : leadsWith werrorPat (c :: subWerrorGo f rest) = true := by
          revert hcon
          cases leadsWith werrorPat (c :: subWerrorGo f rest) <;> simp
        have hpat : werrorPat = '-' :: (("Werror").toList) := rfl
        rw [hpat, leadsWith] at hlead
        have h1 := bandSplit hlead
        have hc : c = '-' := by
          have := h1.1
          simp at this
          exact this.symm
        have hW : leadsWith (("Werror").toList) rest = true := by
          refine subWerrorGo_leads (("Werror").toList) (by decide) f rest c ?_ ?_ h1.2
          · rw [hc]; decide
          · exact werrorSpacedAux_tail p c rest haux
        have hwx : leadsWith werrorPat (c :: rest) = true := by
          rw [hpat, leadsWith, Bool.and_eq_true]
          exact ⟨by simp [hc], hW⟩
        have : matchWerrorLen (c :: rest) ≠ none := by
          unfold matchWerrorLen
          rw [if_pos hwx]
          split <;> simp
        exact this hm

/-- The C5 counterexample file; its path strings do not occur in the
counterexample command. -/
def c5File : SrcPath :=
  { lit := ("/p/q.cpp").toList
    abs := ("/p/q.cpp").toList
    res := ("/p/q.cpp").toList
    name := ("q.cpp").toList
    parent := ("/p").toList }

/-- Claim C5 (counterexample): on the command -Werr-Werroror, removing the
inner occurrence of -Werror rejoins the surrounding text into a fresh
occurrence, so the transformed command still contains -Werror, refuting the
claim as universally stated. -/
theorem c5_counterexample :
    hasSub werrorPat
      (transform_compile_commands (("-Werr-Werroror").toList) c5File) = true := by
  decide

/-- Claim C5 (amended): for every input command such that, after the path and
flag rewrites that precede the -Werror substitution, each occurrence of
-Werror starts the command or is immediately preceded by a space (true of
real command lines with space-delimited flags), the transformed command
contains no occurrence of -Werror. -/
theorem c5_amended (comp_db_entry : Chars) (source_file : SrcPath)
    (h : werrorSpaced (transformPreWerror comp_db_entry source_file) = true) :
    hasSub werrorPat (transform_compile_commands comp_db_entry source_file) = false := by
  unfold transform_compile_commands subWerror
  exact subWerrorGo_no_werror _ _ none le_rfl h

/-- The file used by the C5 witness. -/
def c5WFile : SrcPath :=
  { lit := ("/x/a.cpp").toList
    abs := ("/x/a.cpp").toList
    res := ("/x/a.cpp").toList
    name := ("a.cpp").toList
    parent := ("/x").toList }

/-- Witness for c5_amended on a realistic command carrying -Werror. -/
theorem c5_amended_witness :
    werrorSpaced (transformPreWerror (("cc -Werror -c /x/a.cpp").toList) c5WFile) = true ∧
    hasSub werrorPat
      (transform_compile_commands (("cc -Werror -c /x/a.cpp").toList) c5WFile) = false :=
  ⟨by decide, c5_amended (("cc -Werror -c /x/a.cpp").toList) c5WFile (by decide)⟩

theorem leadsWith_self : ∀ s : Chars, leadsWith s s = true := by
  intro s
  induction s with
  | nil => rfl
  | cons c rest ih => simp [leadsWith, ih]

theorem hasSub_self (s : Chars) : hasSub s s = true := by
  cases s with
  | nil => rfl
  | cons c rest =>
    unfold hasSub
    simp [leadsWith_self]

theorem hasSub_cons (s x : Chars) (c : Char) (h : hasSub s x = true) :
    hasSub s (c :: x) = true := by
  unfold hasSub
  simp [h]

theorem hasSub_drop : ∀ (x : Chars) (k : Nat) (s : Chars),
    hasSub s (x.drop k) = true → hasSub s x = true := by
  intro x
  induction x with
  | nil => intro k s h; simpa using h
  | cons c rest ih =>
    intro k s h
    cases k with
    | zero => exact h
    | succ n => exact hasSub_cons s rest c (ih n s h)

theorem splitSepGo_nil (sep : Chars) (fuel : Nat) : splitSepGo sep fuel [] = [[]] := by
  cases fuel <;> rfl

/-- The first piece produced by the splitting scan is a prefix of the
input. -/
theorem splitSepGo_head_leads (sep : Chars) :
    ∀ (fuel : Nat) (x s : Chars) (ss : List Chars),
      splitSepGo sep fuel x = s :: ss → leadsWith s x = true := by
  intro fuel
  induction fuel with
  | zero =>
    intro x s ss h
    cases x with
    | nil =>
      rw [splitSepGo_nil] at h
      injection h with h1 _
      subst h1
      rfl
    | cons c rest =>
      have heq : splitSepGo sep 0 (c :: rest) = [c :: rest] := rfl
      rw [heq] at h
      injection h with h1 _
      subst h1
      exact leadsWith_self _
  | succ f ih =>
    intro x s ss h
    cases x with
    | nil =>
      rw [splitSepGo_nil] at h
      injection h with h1 _
      subst h1
      rfl
    | cons c rest =>
      by_cases hsep : leadsWith sep (c :: rest) = true
      · have heq : splitSepGo sep (f + 1) (c :: rest) =
            [] :: splitSepGo sep f ((c :: rest).drop sep.length) := by
          simp [splitSepGo, hsep]
        rw [heq] at h
        injection h with h1 _
        subst h1
        rfl
      · cases hr : splitSepGo sep f rest with
        | nil =>
          have heq : splitSepGo sep (f + 1) (c :: rest) = [[c]] := by
            simp [splitSepGo, hsep, hr]
          rw [heq] at h
          injection h with h1 _
          subst h1
          simp [leadsWith]
        | cons s0 ss0 =>
          have heq : splitSepGo sep (f + 1) (c :: rest) = (c :: s0) :: ss0 := by
            simp [splitSepGo, hsep, hr]
          rw [heq] at h
          injection h with h1 _
          subst h1
          rw [leadsWith]
          simp [ih rest s0 ss0 hr]

/-- Every piece produced by the splitting scan is a contiguous substring of
the input. -/
theorem splitSepGo_mem_hasSub (sep : Chars) :
    ∀ (fuel : Nat) (x s : Chars), s ∈ splitSepGo sep fuel x → hasSub s x = true := by
  intro fuel
  induction fuel with
  | zero =>
    intro x s h
    cases x with
    | nil =>
      rw [splitSepGo_nil] at h
      simp at h
      subst h
      rfl
    | cons c rest =>
      have heq : splitSepGo sep 0 (c :: rest) = [c :: rest] := rfl
      rw [heq] at h
      simp at h
      subst h
      exact hasSub_self _
  | succ f ih =>
    intro x s h
    cases x with
    | nil =>
      rw [splitSepGo_nil] at h
      simp at h
      subst h
      rfl
    | cons c rest =>
      by_cases hsep : leadsWith sep (c :: rest) = true
      · have heq : splitSepGo sep (f + 1) (c :: rest) =
            [] :: splitSepGo sep f ((c :: rest).drop sep.length) := by
          simp [splitSepGo, hsep]
        rw [heq] at h
        rcases List.mem_cons.mp h with h1 | h2
        · subst h1
          unfold hasSub
          simp [leadsWith]
        · exact hasSub_drop (c :: rest) sep.length s (ih _ s h2)
      · cases hr : splitSepGo sep f rest with
        | nil =>
          have heq : splitSepGo sep (f + 1) (c :: rest) = [[c]] := by
            simp [splitSepGo, hsep, hr]
          rw [heq] at h
          simp at h
          subst h
          unfold hasSub
          simp [leadsWith]
        | cons s0 ss0 =>
          have heq : splitSepGo sep (f + 1) (c :: rest) = (c :: s0) :: ss0 := by
            simp [splitSepGo, hsep, hr]
          rw [heq] at h
          rcases List.mem_cons.mp h with h1 | h2
          · subst h1
            unfold hasSub
            rw [leadsWith]
            simp [splitSepGo_head_leads sep f rest s0 ss0 hr]
          · exact hasSub_cons s rest c (ih rest s (hr ▸ List.mem_cons_of_mem s0 h2))

/-
The dialect probe (get_csvise_supported_cpp_std in reducer/lib/setup.py).
The code slices the reducer help text between the literal
"--clang-delta-std \x7b" and the next closing brace, tests the requested
dialect for substring containment in that slice (the Python in operator),
and otherwise falls back to the last comma-separated element, or c++20 when
that element is empty.  The help text is the observed stdout of the probe
run, passed in as a parameter.
-/
def stdFlagPat : Chars := ("--clang-delta-std \x7b").toList

/-- The brace-delimited dialect list sliced out of the help text, exactly as
the source slices it (including its behavior when the flag or the closing
brace is absent and find returns -1). -/
def extractStdList (helpMsg : Chars) : Chars :=
  let loc : Int := pyFind stdFlagPat helpMsg 0 + (stdFlagPat.length : Int)
  pySlice helpMsg loc (pyFind (("\x7d").toList) helpMsg (loc + 1).toNat)

/-- get_csvise_supported_cpp_std from reducer/lib/setup.py: return the
requested dialect when the Python in operator finds it in the sliced list,
else the last comma-split element when nonempty, else c++20. -/
def get_csvise_supported_cpp_std (helpMsg cpp_std : Chars) : Chars :=
  if hasSub cpp_std (extractStdList helpMsg) then cpp_std
  else if (splitSep ([',']) (extractStdList helpMsg)).getLastD [] ≠ [] then
    (splitSep ([',']) (extractStdList helpMsg)).getLastD []
  else ("c++20").toList

/-- Help text used by the C10 counterexample, advertising the six dialects
of a current cvise. -/
def c10Help : Chars :=
  ("usage\n--clang-delta-std \x7bc++98,c++11,c++14,c++17,c++20,c++2b\x7d pick\n").toList

/-- Claim C10 (counterexample): the requested dialect c++1 is not an element
of the advertised dialect set, so the claim requires the newest advertised
dialect c++2b; but containment is tested by substring, c++1 occurs inside
c++11, and the code returns c++1 itself. -/
theorem c10_counterexample :
    get_csvise_supported_cpp_std c10Help (("c++1").toList) = ("c++1").toList ∧
    (("c++1").toList) ∉ splitSep ([',']) (extractStdList c10Help) ∧
    (("c++1").toList) ≠ ("c++2b").toList := by
  decide

/-- Claim C10 (amended): the requested dialect is passed through unchanged
whenever it occurs as a substring of the brace-delimited dialect list in the
help text — in particular whenever it is one of the comma-separated elements
of that list; otherwise the code returns the last element of the
comma-split list (the newest the reducer advertises, as listed last), or
c++20 when that last element is empty. -/
theorem c10_amended (helpMsg cpp_std : Chars) :
    (hasSub cpp_std (extractStdList helpMsg) = true →
      get_csvise_supported_cpp_std helpMsg cpp_std = cpp_std) ∧
    (cpp_std ∈ splitSep ([',']) (extractStdList helpMsg) →
      get_csvise_supported_cpp_std helpMsg cpp_std = cpp_std) ∧
    (hasSub cpp_std (extractStdList helpMsg) = false →
      (splitSep ([',']) (extractStdList helpMsg)).getLastD [] ≠ [] →
      get_csvise_supported_cpp_std helpMsg cpp_std =
        (splitSep ([',']) (extractStdList helpMsg)).getLastD []) ∧
    (hasSub cpp_std (extractStdList helpMsg) = false →
      (splitSep ([',']) (extractStdList helpMsg)).getLastD [] = [] →
      get_csvise_supported_cpp_std helpMsg cpp_std = ("c++20").toList) := by
  refine ⟨?_, ?_, ?_, ?_⟩
  · intro hsub
    unfold get_csvise_supported_cpp_std
    simp [hsub]
  · intro h
    unfold splitSep at h
    have hsub : hasSub cpp_std (extractStdList helpMsg) = true :=
      splitSepGo_mem_hasSub ([',']) _ _ cpp_std h
    unfold get_csvise_supported_cpp_std
    simp [hsub]
  · intro hsub hne
    unfold get_csvise_supported_cpp_std
    rw [if_neg (by simp [hsub]), if_pos hne]
  · intro hsub he
    unfold get_csvise_supported_cpp_std
    rw [if_neg (by simp [hsub]), if_neg (not_ne_iff.mpr he)]

/-- Help text used by the C10 witness. -/
def c10WHelp : Chars := ("--clang-delta-std \x7bc++17,c++20\x7d").toList

/-- Witness for c10_amended: a dialect listed in the help text is returned
unchanged, and an unsupported request falls back to the last listed
element. -/
theorem c10_amended_witness :
    get_csvise_supported_cpp_std c10WHelp (("c++17").toList) = ("c++17").toList ∧
    get_csvise_supported_cpp_std c10WHelp (("c++77").toList) =
      (splitSep ([',']) (extractStdList c10WHelp)).getLastD [] :=
  ⟨(c10_amended c10WHelp (("c++17").toList)).2.1 (by decide),
   (c10_amended c10WHelp (("c++77").toList)).2.2.1 (by decide) (by decide)⟩

/-
The crash-check bisector (deduce_crashing_check_from_binary_search in
reducer/driver/clang_tidy.py).  Running the diagnostic tool restricted to a
candidate check list is a capability: the predicate crash tells whether the
invocation with exactly those checks enabled exits nonzero.  The function is
instrumented to also return the number of tool invocations it performs; the
fuel equals the initial list length, which bounds the recursion depth
because both halves of a list of length at least two are strictly shorter.
-/
def bisectGo (crash : List Chars → Bool) : Nat → List Chars → List Chars × Nat
  | 0, l => (l, 0)
  | fuel + 1, l =>
    if l.length ≤ 1 then (l, 0)
    else if crash l then
      let a := bisectGo crash fuel (l.take (l.length / 2))
      let b := bisectGo crash fuel (l.drop (l.length / 2))
      (a.1 ++ b.1, 1 + a.2 + b.2)
    else ([], 1)

/-- deduce_crashing_check_from_binary_search from
reducer/driver/clang_tidy.py: the first component is the returned check
list, the second the number of diagnostic-tool invocations performed. -/
def deduce_crashing_check_from_binary_search (crash : List Chars → Bool)
    (l : List Chars) : List Chars × Nat :=
  bisectGo crash l.length l

theorem bisectGo_mem (t : Chars) :
    ∀ (fuel : Nat) (l : List Chars), l.length ≤ fuel → t ∈ l →
      t ∈ (bisectGo (fun xs => decide (t ∈ xs)) fuel l).1 := by
  intro fuel
  induction fuel with
  | zero => exact fun l _ ht => ht
  | succ f ih =>
    intro l hlen ht
    by_cases h1 : l.length ≤ 1
    · simpa [bisectGo, h1] using ht
    · have hcrash : decide (t ∈ l) = true := decide_eq_true ht
      have heq : (bisectGo (fun xs => decide (t ∈ xs)) (f + 1) l).1 =
          (bisectGo (fun xs => decide (t ∈ xs)) f (l.take (l.length / 2))).1 ++
            (bisectGo (fun xs => decide (t ∈ xs)) f (l.drop (l.length / 2))).1 := by
        simp [bisectGo, h1, hcrash]
      rw [heq]
      have hsplit : t ∈ l.take (l.length / 2) ∨ t ∈ l.drop (l.length / 2) := by
        rw [← List.take_append_drop (l.length / 2) l] at ht
        exact List.mem_append.mp ht
      rcases hsplit with h | h
      · refine List.mem_append_left _ (ih _ ?_ h)
        simp [List.length_take]
        omega
      · refine List.mem_append_right _ (ih _ ?_ h)
        simp [List.length_drop]
        omega

theorem bisectGo_sublist (crash : List Chars → Bool) :
    ∀ (fuel : Nat) (l : List Chars), (bisectGo crash fuel l).1.Sublist l := by
  intro fuel
  induction fuel with
  | zero => exact fun l => List.Sublist.refl l
  | succ f ih =>
    intro l
    by_cases h1 : l.length ≤ 1
    · simp [bisectGo, h1]
    · by_cases hc : crash l = true
      · have heq : (bisectGo crash (f + 1) l).1 =
            (bisectGo crash f (l.take (l.length / 2))).1 ++
              (bisectGo crash f (l.drop (l.length / 2))).1 := by
          simp [bisectGo, h1, hc]
        rw [heq]
        have happ := (ih (l.take (l.length / 2))).append (ih (l.drop (l.length / 2)))
        simpa [List.take_append_drop] using happ
      · simp [bisectGo, h1, hc]

theorem bisectGo_count (crash : List Chars → Bool) :
    ∀ (fuel : Nat) (l : List Chars), (bisectGo crash fuel l).2 ≤ l.length - 1 := by
  intro fuel
  induction fuel with
  | zero => intro l; simp [bisectGo]
  | succ f ih =>
    intro l
    by_cases h1 : l.length ≤ 1
    · simp [bisectGo, h1]
    · by_cases hc : crash l = true
      · have heq : (bisectGo crash (f + 1) l).2 =
            1 + (bisectGo crash f (l.take (l.length / 2))).2 +
              (bisectGo crash f (l.drop (l.length / 2))).2 := by
          simp [bisectGo, h1, hc]
        rw [heq]
        have ha := ih (l.take (l.length / 2))
        have hb := ih (l.drop (l.length / 2))
        simp [List.length_take, List.length_drop] at ha hb
        omega
      · have heq : (bisectGo crash (f + 1) l).2 = 1 := by
          simp [bisectGo, h1, hc]
        rw [heq]
        omega

/-- Claim C3 (counterexample): with two checks and a predicate that crashes
exactly when check b is enabled, the binary search returns both checks, not
the singleton with the culprit: sublists of length at most one are returned
without being tested. -/
theorem c3_counterexample :
    (deduce_crashing_check_from_binary_search
        (fun xs => decide ((("b").toList) ∈ xs))
        [("a").toList, ("b").toList]).1 = [("a").toList, ("b").toList] ∧
    [("a").toList, ("b").toList] ≠ [("b").toList] := by
  decide

/-- Claim C3 (amended): for every check list containing the culprit and the
single-culprit crash predicate, the result of the binary search contains the
culprit and is a sublist of the check list — but it need not be exactly the
singleton (untested size-one windows are also returned, as the
counterexample shows). -/
theorem c3_amended (t : Chars) (l : List Chars) (h : t ∈ l) :
    t ∈ (deduce_crashing_check_from_binary_search (fun xs => decide (t ∈ xs)) l).1 ∧
    (deduce_crashing_check_from_binary_search (fun xs => decide (t ∈ xs)) l).1.Sublist l := by
  unfold deduce_crashing_check_from_binary_search
  exact ⟨bisectGo_mem t l.length l le_rfl h, bisectGo_sublist _ l.length l⟩

/-- Witness for c3_amended on a three-check list with culprit b. -/
theorem c3_amended_witness :
    (("b").toList) ∈ (deduce_crashing_check_from_binary_search
        (fun xs => decide ((("b").toList) ∈ xs))
        [("a").toList, ("b").toList, ("c").toList]).1 ∧
    (deduce_crashing_check_from_binary_search
        (fun xs => decide ((("b").toList) ∈ xs))
        [("a").toList, ("b").toList, ("c").toList]).1.Sublist
      [("a").toList, ("b").toList, ("c").toList] :=
  c3_amended (("b").toList) [("a").toList, ("b").toList, ("c").toList] (by decide)

/-- Claim C9: on the empty check list the bisector returns the empty result
with zero diagnostic-tool invocations; in general it terminates (the
function is total) after at most length-minus-one invocations. -/
theorem c9_bisect_terminates :
    (∀ crash : List Chars → Bool,
        deduce_crashing_check_from_binary_search crash [] = ([], 0)) ∧
    ∀ (crash : List Chars → Bool) (l : List Chars),
      (deduce_crashing_check_from_binary_search crash l).2 ≤ l.length - 1 := by
  constructor
  · intro crash; rfl
  · intro crash l
    exact bisectGo_count crash l.length l

/-
The fast path (deduce_crashing_check_from_crash in
reducer/driver/clang_tidy.py).  The code calls
re.match("ASTMatcher: Processing '([^']*)'", stderr) — anchored at the very
start of the error stream — and, when it matches, returns m.group(): the
whole matched text, marker prefix and quotes included, not the captured
group 1.  The error stream of the single probe run is a parameter.
-/
def apos : Char := Char.ofNat 39

/-- The literal part of the crash-marker pattern up to and including the
opening quote. -/
def astMarker : Chars := (("ASTMatcher: Processing ").toList) ++ [apos]

/-- deduce_crashing_check_from_crash from reducer/driver/clang_tidy.py:
match the marker pattern at the start of stderr; on success return the full
matched text (the behavior of m.group()). -/
def deduce_crashing_check_from_crash (stderrText : Chars) : Option Chars :=
  if leadsWith astMarker stderrText then
    let rest := stderrText.drop astMarker.length
    let grp := rest.takeWhile (fun c => !(c == apos))
    if grp.length < rest.length then some (astMarker ++ grp ++ [apos]) else none
  else none

/-- deduce_crashing_check from reducer/driver/clang_tidy.py: the fast path
when the marker matched (the returned string is nonempty, hence truthy in
the source), else the binary search over the enumerated checks. -/
def deduce_crashing_check (stderrText : Chars) (crash : List Chars → Bool)
    (checks : List Chars) : List Chars :=
  match deduce_crashing_check_from_crash stderrText with
  | some m => [m]
  | none => (deduce_crashing_check_from_binary_search crash checks).1

/-- Claim C6: when the error stream carries the processing marker for check
misc-x, the fast path returns a singleton — but its element is the entire
matched marker text, not the check name misc-x, because the source returns
m.group() instead of m.group(1). -/
theorem c6_full_match_returned :
    deduce_crashing_check (astMarker ++ (("misc-x").toList) ++ [apos])
        (fun _ => false) [] =
      [astMarker ++ (("misc-x").toList) ++ [apos]] ∧
    astMarker ++ (("misc-x").toList) ++ [apos] ≠ ("misc-x").toList := by
  decide

/-
The interestingness-test synthesizer (create_interestingness_test in
reducer/reducer.py, lines 151-200; the CompilerCrashDriver variant shares
its structure and its defects).  The generator is reproduced as a function
from the configuration to the full text of test.sh.  A small semantics of
the generated script shape — commands joined by the conjunction operator,
each optionally negated and optionally wrapped in the timeout utility —
evaluates that text against an environment assigning each base command an
exit code and a wall-clock duration.
-/

/-- remove_explicit_path from reducer/reducer.py: strip the sandbox
directory prefix followed by a slash from the command. -/
def remove_explicit_path (compile_command : Chars) (cwd : Chars) : Chars :=
  strReplace (cwd ++ (("/").toList)) [] compile_command

/-- Length of the match of re.sub(r"-p[ =]?[^ ]*", ...) at the head of x:
dash p, an optional space or equals sign, then a greedy run of non-space
characters. -/
def matchPFlagLen (x : Chars) : Option Nat :=
  if leadsWith (("-p").toList) x then
    let r := x.drop 2
    let d : Nat :=
      match r with
      | c :: _ => if c == ' ' || c == '=' then 1 else 0
      | [] => 0
    some (2 + d + ((r.drop d).takeWhile (fun c => !(c == ' '))).length)
  else none

/-- Scanning pass of re.sub(r"-p[ =]?[^ ]*", repl, x); fuel as elsewhere,
sufficient because each match consumes at least two characters. -/
def subPFlagGo (repl : Chars) : Nat → Chars → Chars
  | _, [] => []
  | 0, x => x
  | fuel + 1, c :: rest =>
    match matchPFlagLen (c :: rest) with
    | some k => repl ++ subPFlagGo repl fuel ((c :: rest).drop k)
    | none => c :: subPFlagGo repl fuel rest

/-- re.sub(r"-p[ =]?[^ ]*", "-p " + cwd, x): repoint the path-selector flag
of the interesting command at the sandbox. -/
def subPFlag (cwd x : Chars) : Chars := subPFlagGo ((("-p ").toList) ++ cwd) x.length x

/-- Python f-string interpolation of an optional integer: None prints as the
four letters None. -/
def pyOptNat : Option Nat → Chars
  | none => ("None").toList
  | some t => (toString t).toList

/-- The default verifying-compiler arguments derived in the source: the
crashing compile command from its first space onward, with the three listed
flags rewritten. -/
def vcArgsDefault (compile_command : Chars) : Chars :=
  strReplace (("-fopenmp=libomp").toList) (("-fopenmp").toList)
    (strReplace (("-Wdocumentation").toList) []
      (strReplace (("-fcolor-diagnostics").toList) []
        (pySliceFrom compile_command (pyFind ((" ").toList) compile_command 0))))

/-- The configuration fields of the argparse namespace that the generator
reads. -/
structure ScriptArgs where
  compile_error : Bool
  verifying_compiler : Option Chars
  verifying_compiler_args : Option Chars
  timeout : Option Nat
  interesting_command : Option Chars
  source_file : SrcPath

/-- The fixed first line of every generated script. -/
def scriptShebang : Chars := ("#!/bin/bash\n").toList

/-- create_interestingness_test from reducer/reducer.py: the full text
written to test.sh.  Note the two compile-error branches of the source: when
a timeout is configured the compile command is written bare behind the
negation, and when none is configured the literal text of the absent Python
value is interpolated after the timeout utility. -/
def create_interestingness_test (args : ScriptArgs) (cwd : Chars)
    (compile_command0 : Chars) : Chars :=
  let compile_command := remove_explicit_path compile_command0 cwd
  let part1 : Chars :=
    if args.compile_error then
      match args.verifying_compiler with
      | some vc =>
        let vcargs :=
          match args.verifying_compiler_args with
          | some s => s
          | none => vcArgsDefault compile_command
        vc ++ ((" ").toList) ++ vcargs ++ ((" && ").toList)
      | none => []
    else []
  let part2 : Chars :=
    if args.compile_error then
      match args.timeout with
      | some _ =>
        (("! ").toList) ++ compile_command ++
          ((" -fno-color-diagnostics > log.txt 2>&1").toList)
      | none =>
        (("! timeout ").toList) ++ pyOptNat args.timeout ++ ((" ").toList) ++
          compile_command ++ ((" -fno-color-diagnostics > log.txt 2>&1").toList)
    else
      compile_command ++ ((" -Wfatal-errors -fno-color-diagnostics > log.txt 2>&1").toList)
  let part3 : Chars :=
    match args.interesting_command with
    | none => []
    | some ic0 =>
      let ic1 := replace_path ic0 args.source_file args.source_file.name
      let ic2 := subPFlag cwd ic1
      match args.timeout with
      | some t =>
        ((" && ! timeout ").toList) ++ (toString t).toList ++ ((" ").toList) ++
          ic2 ++ (("\n").toList)
      | none => ((" && ").toList) ++ ic2 ++ (("\n").toList)
  scriptShebang ++ part1 ++ part2 ++ part3

/-- Outcome of one run of a base command: its exit status and its wall-clock
duration in seconds. -/
structure Proc where
  code : Int
  secs : Nat

/-- A nonempty all-digit string (the timeout arguments the generator writes
are decimal integers; the literal None is not one). -/
def isDigits (s : Chars) : Bool := !s.isEmpty && s.all (fun c => c.isDigit)

def natOfDigits (s : Chars) : Nat := s.foldl (fun a c => 10 * a + (c.toNat - 48)) 0

/-- Evaluate a command with no leading negation: a leading timeout utility
kills the wrapped command at the limit (exit 124), rejects a non-numeric
limit with a usage error (exit 125), and otherwise passes the exit status
through; anything else is a base command looked up in the environment. -/
def evalPlain (env : Chars → Proc) (c : Chars) : Int :=
  if leadsWith (("timeout ").toList) c then
    let rest := c.drop 8
    let arg := rest.takeWhile (fun ch => !(ch == ' '))
    let inner := rest.drop (arg.length + 1)
    if isDigits arg then
      if natOfDigits arg ≤ (env inner).secs then 124 else (env inner).code
    else 125
  else (env c).code

/-- Evaluate a command with the shell negation operator: exit 0 when the
operand exits nonzero and 1 otherwise. -/
def evalCmd (env : Chars → Proc) (c : Chars) : Int :=
  if leadsWith (("! ").toList) c then
    if evalPlain env (c.drop 2) = 0 then 1 else 0
  else evalPlain env c

/-- Evaluate a conjunction chain: stop at the first nonzero exit status. -/
def evalAndChain (env : Chars → Proc) : List Chars → Int
  | [] => 0
  | c :: rest =>
    let e := evalCmd env c
    if e = 0 then evalAndChain env rest else e

/-- Exit status of a generated script: evaluate the conjunction chain after
the shebang line. -/
def evalScript (env : Chars → Proc) (content : Chars) : Int :=
  evalAndChain env (splitSep ((" && ").toList) (content.drop scriptShebang.length))

/-- The source file of the C1 failing input (unused by the generated text
because no interesting command is configured). -/
def c1File : SrcPath :=
  { lit := ("/sb/main.cpp").toList
    abs := ("/sb/main.cpp").toList
    res := ("/sb/main.cpp").toList
    name := ("main.cpp").toList
    parent := ("/sb").toList }

/-- The compile-crash configuration of the C1 failing input: verifying
compiler vc with explicit arguments, no timeout, no interesting command. -/
def c1Args : ScriptArgs :=
  { compile_error := true
    verifying_compiler := some (("vc").toList)
    verifying_compiler_args := some (("-c main.cpp").toList)
    timeout := none
    interesting_command := none
    source_file := c1File }

/-- An environment in which every process, the crashing compile included,
exits 0 immediately: the input is not interesting under the claim. -/
def c1Env : Chars → Proc := fun _ => { code := 0, secs := 0 }

/-- Claim C1: at the failing input, the generated script interpolates the
literal None behind the timeout utility; timeout rejects that interval with
exit 125, the negation turns it into 0, and the script reports interesting
even though the wrapped compile and the verifying compiler both exited 0 —
the claimed equivalence requires a nonzero exit here. -/
theorem c1_script_wrong_on_successful_compile :
    create_interestingness_test c1Args (("/sb").toList) (("g++ -c main.cpp").toList) =
      ("#!/bin/bash\nvc -c main.cpp && ! timeout None g++ -c main.cpp -fno-color-diagnostics > log.txt 2>&1").toList ∧
    evalScript c1Env
      (create_interestingness_test c1Args (("/sb").toList) (("g++ -c main.cpp").toList)) = 0 ∧
    (c1Env (("g++ -c main.cpp -fno-color-diagnostics > log.txt 2>&1").toList)).code = 0 := by
  decide

/-- The target file of the C7 end-to-end scenario. -/
def c7File : SrcPath :=
  { lit := ("/proj/main.cpp").toList
    abs := ("/proj/main.cpp").toList
    res := ("/proj/main.cpp").toList
    name := ("main.cpp").toList
    parent := ("/proj").toList }

/-- Claim C7: on the entry command from the scenario, the transformer yields
exactly the expected command (with one trailing space where -Werror was
removed, within the whitespace tolerance of the claim); -Werror is absent and
-o targets the fixed literal output.cpp.o. -/
theorem c7_end_to_end :
    transform_compile_commands
        (("clang++ -std=c++20 -c /proj/main.cpp -o main.o -Werror").toList) c7File =
      ("clang++ -std=c++20 -I/proj -Wfatal-errors -c main.cpp -o output.cpp.o ").toList ∧
    hasSub werrorPat
      (transform_compile_commands
        (("clang++ -std=c++20 -c /proj/main.cpp -o main.o -Werror").toList) c7File) = false ∧
    hasSub (("-o output.cpp.o").toList)
      (transform_compile_commands
        (("clang++ -std=c++20 -c /proj/main.cpp -o main.o -Werror").toList) c7File) = true := by
  decide
